import Mathlib

/-!
Verification of the BIST incremental batch acquisition pipeline.

The definitions below are a shallow embedding of the Python sources:
`src/data_downloader.py` (BISTDataDownloader), `src/download_all_tickers.py`
(inventory scan and scheduler run) and `src/check_progress.py` (progress
scan).  Tabular data (pandas DataFrames) is modelled as an explicit column
list together with rows of optional rational cells; the external yfinance
fetch (`yf.Ticker(t).history(...)`) is a parameter of the scheduler; side
effects (fetch calls, file writes, sleeps, validation calls) are recorded
in an explicit event trace.
-/

/-- One cell of a data frame: a numeric value, a string value (the added
`Ticker` column), or a missing value (pandas NaN/null). -/
inductive Cell where
  | num  (q : ℚ)
  | str  (s : String)
  | null
  deriving DecidableEq, Repr

/-- One row of a time-series table: the timestamp index entry (a date
string, as rendered by strftime with a year-month-day format) and the
cells, aligned
with the column list of the table. -/
structure Row where
  timestamp : String
  cells : List Cell
  deriving DecidableEq, Repr

/-- A pandas DataFrame as used by the downloader: named columns and
timestamp-indexed rows. -/
structure DataFrame where
  cols : List String
  rows : List Row
  deriving DecidableEq, Repr

/-- `DataFrame.empty` — pandas `df.empty`: true iff either axis has
length zero. -/
def DataFrame.empty (d : DataFrame) : Bool :=
  d.rows.isEmpty || d.cols.isEmpty

/-! ### String helpers modelling the Python string operations -/

/-- Python str.replace with pattern `.IS` and empty replacement: delete
every occurrence of the literal substring `.IS`, scanning left to
right. -/
def stripIS : List Char → List Char
  | '.' :: 'I' :: 'S' :: rest => stripIS rest
  | c :: rest => c :: stripIS rest
  | [] => []

/-- Python `s.split(sep)` for a one-character separator. -/
def splitChars (sep : Char) : List Char → List (List Char)
  | [] => [[]]
  | c :: rest =>
    let r := splitChars sep rest
    if c == sep then [] :: r
    else
      match r with
      | [] => [[c]]
      | g :: gs => (c :: g) :: gs

/-- Python `s.split(sep)` on a `String`. -/
def splitAll (sep : Char) (s : String) : List String :=
  (splitChars sep s.data).map String.mk

/-- Python str.endswith with suffix `.csv`. -/
def endsWithCsv (s : String) : Bool :=
  match s.data.reverse with
  | 'v' :: 's' :: 'c' :: '.' :: _ => true
  | _ => false

/-- Derive a ticker from a file name (src/download_all_tickers.py:27):
split on underscores, take the first part, append `.IS`. -/
def tickerOfFile (file : String) : String :=
  ((splitAll '_' file).headD "") ++ ".IS"

/-- The persisted artifact name (src/data_downloader.py:81): the ticker
with `.IS` removed, then period and interval, joined by underscores,
with extension `.csv`. -/
def artifactName (ticker period interval : String) : String :=
  String.mk (stripIS ticker.data) ++ "_" ++ period ++ "_" ++ interval ++ ".csv"

/-! ### Inventory scanner (`src/download_all_tickers.py`, `src/check_progress.py`)

The storage location is modelled as `Option (List String)`: `none` when
the `data` directory does not exist (`os.path.exists(data_dir)` false),
`some files` for its directory listing. -/

/-- `get_existing_tickers` (src/download_all_tickers.py:18-30): every
`.csv` file contributes the ticker derived from its name; a missing
data directory contributes nothing.  The Python set is modelled as a
list used only through membership. -/
def get_existing_tickers (files : Option (List String)) : List String :=
  match files with
  | none => []
  | some fs => (fs.filter endsWithCsv).map tickerOfFile

/-- `get_new_tickers_to_download` (src/download_all_tickers.py:32-41):
the universe tickers not in the existing set, in universe order. -/
def get_new_tickers_to_download (univ : List String)
    (files : Option (List String)) : List String :=
  univ.filter (fun t => !((get_existing_tickers files).contains t))

/-- `check_download_progress` (src/check_progress.py:26-35): the
downloaded-ticker derivation, identical in shape to
`get_existing_tickers`. -/
def downloaded_tickers (files : Option (List String)) : List String :=
  match files with
  | none => []
  | some fs => (fs.filter endsWithCsv).map tickerOfFile

/-- `check_download_progress` (src/check_progress.py:38):
`missing_tickers = set(BIST_TICKERS) - downloaded_tickers`, modelled
through membership. -/
def missing_tickers (univ : List String)
    (files : Option (List String)) : List String :=
  univ.filter (fun t => !((downloaded_tickers files).contains t))

/-! ### Validator (`BISTDataDownloader.validate_data`, src/data_downloader.py:147-181) -/

/-- The warnings `validate_data` can log; the returned list records the
`logger.warning` calls of one invocation, in order. -/
inductive Diag where
  | emptyWarn
  | missingColumnsWarn (cols : List String)
  | invalidCloseWarn
  | missingValuesWarn (count : ℕ)
  deriving DecidableEq, Repr

/-- `required_columns` (src/data_downloader.py:163). -/
def requiredColumns : List String :=
  ["Open", "High", "Low", "Close", "Volume"]

/-- The cells of one named column (`data[c]`); empty when the column is
absent. -/
def colCells (d : DataFrame) (c : String) : List Cell :=
  match d.cols.findIdx? (· == c) with
  | none => []
  | some j => d.rows.map (fun r => r.cells.getD j Cell.null)

/-- Pandas `x <= 0` on one cell: false on NaN/null and non-numeric
cells. -/
def isNonPositive : Cell → Bool
  | Cell.num q => q ≤ 0
  | _ => false

/-- `data.isnull().sum().sum()`: the null cells across all columns. -/
def countNulls (d : DataFrame) : ℕ :=
  (d.rows.map (fun r => r.cells.countP (· == Cell.null))).sum

/-- `validate_data` (src/data_downloader.py:147-181).  The Bool is the
return value; the list records the warnings logged on the way.  The
checks run in source order with early `return False`. -/
def validate_data (d : DataFrame) : Bool × List Diag :=
  if d.empty then (false, [Diag.emptyWarn])
  else
    let missing_columns := requiredColumns.filter (fun c => !(d.cols.contains c))
    if missing_columns.isEmpty then
      if (colCells d "Close").any isNonPositive then
        (false, [Diag.invalidCloseWarn])
      else
        let missing_count := countNulls d
        if missing_count > 0 then (true, [Diag.missingValuesWarn missing_count])
        else (true, [])
    else (false, [Diag.missingColumnsWarn missing_columns])

/-! ### Acquisition scheduler (`BISTDataDownloader`, src/data_downloader.py) -/

/-- The behaviour of one `yf.Ticker(t).history(period, interval)` call:
a returned table (possibly empty) or a raised exception.  The fetch
client is external; a scheduler run is parameterised by it. -/
inductive HistResult where
  | ok  (d : DataFrame)
  | exn (msg : String)
  deriving DecidableEq, Repr

/-- The observable side effects of a run, in order: the yfinance history
call, a `data.to_csv(filepath)` write, a `time.sleep(delay)` pause, and
a `validate_data` call from the summary reporter. -/
inductive Event where
  | fetchCall (ticker : String)
  | persist (file : String) (d : DataFrame)
  | sleep
  | validate (ticker : String) (d : DataFrame)
  deriving DecidableEq, Repr

/-- The Ticker-column assignment (src/data_downloader.py:78): append a
`Ticker` column holding the symbol to every row. -/
def addTickerColumn (ticker : String) (d : DataFrame) : DataFrame :=
  { cols := d.cols ++ ["Ticker"],
    rows := d.rows.map (fun r => { r with cells := r.cells ++ [Cell.str ticker] }) }

/-- `download_ticker_data` (src/data_downloader.py:51-92): fetch one
ticker; on exception or an empty table return `None`; otherwise tag the
table with its ticker, write it to the artifact file, and return it. -/
def download_ticker_data (hist : String → HistResult)
    (ticker period interval : String) : Option DataFrame × List Event :=
  match hist ticker with
  | HistResult.exn _ => (none, [Event.fetchCall ticker])
  | HistResult.ok data =>
    if data.empty then (none, [Event.fetchCall ticker])
    else
      let data' := addTickerColumn ticker data
      (some data',
       [Event.fetchCall ticker,
        Event.persist (artifactName ticker period interval) data'])

/-- Python `results[ticker] = data` on an insertion-ordered dict,
modelled as an association list: overwrite in place if the key is
present, else append. -/
def dictSet (m : List (String × DataFrame)) (k : String) (v : DataFrame) :
    List (String × DataFrame) :=
  match m with
  | [] => [(k, v)]
  | (k', v') :: rest =>
    if k' == k then (k', v) :: rest else (k', v') :: dictSet rest k v

/-- The loop body of `download_multiple_tickers`
(src/data_downloader.py:110-123): process the tickers in order,
recording each non-`None` result in the dict and sleeping after every
request except the last. -/
def dmtGo (hist : String → HistResult) (period interval : String) :
    List String → List (String × DataFrame) →
    List (String × DataFrame) × List Event
  | [], acc => (acc, [])
  | t :: rest, acc =>
    let step := download_ticker_data hist t period interval
    let acc' :=
      match step.1 with
      | some d => dictSet acc t d
      | none => acc
    let r := dmtGo hist period interval rest acc'
    (r.1, step.2 ++ (if rest.isEmpty then [] else [Event.sleep]) ++ r.2)

/-- `download_multiple_tickers` (src/data_downloader.py:94-123). -/
def download_multiple_tickers (hist : String → HistResult)
    (tickers : List String) (period interval : String) :
    List (String × DataFrame) × List Event :=
  dmtGo hist period interval tickers []

/-! ### Summary reporter (`generate_summary_report`, src/data_downloader.py:183-207) -/

/-- One row of the summary report, with the fields built at
src/data_downloader.py:189-198.  `minClose`/`maxClose`/`avgVolume` are
`Cell.null` when the column has no numeric entries (pandas NaN). -/
structure SummaryRow where
  ticker : String
  records : ℕ
  startDate : String
  endDate : String
  minClose : Cell
  maxClose : Cell
  avgVolume : Cell
  dataQuality : String
  deriving DecidableEq, Repr

/-- Lexicographic order on character lists, modelling comparison of the
date strings in the index. -/
def lexLt : List Char → List Char → Bool
  | [], [] => false
  | [], _ :: _ => true
  | _ :: _, [] => false
  | a :: as, b :: bs => if a < b then true else if b < a then false else lexLt as bs

/-- `data.index.min()` over the timestamp strings. -/
def strMin (l : List String) : String :=
  match l with
  | [] => ""
  | x :: xs => xs.foldl (fun a b => if lexLt b.data a.data then b else a) x

/-- `data.index.max()` over the timestamp strings. -/
def strMax (l : List String) : String :=
  match l with
  | [] => ""
  | x :: xs => xs.foldl (fun a b => if lexLt a.data b.data then b else a) x

/-- The numeric entries of a column (pandas aggregations skip NaN). -/
def numsOf (cells : List Cell) : List ℚ :=
  cells.filterMap (fun c => match c with | Cell.num q => some q | _ => none)

/-- `series.min()`: NaN (null) when no numeric entry exists. -/
def cellMin (cells : List Cell) : Cell :=
  match numsOf cells with
  | [] => Cell.null
  | q :: qs => Cell.num (qs.foldl min q)

/-- `series.max()`: NaN (null) when no numeric entry exists. -/
def cellMax (cells : List Cell) : Cell :=
  match numsOf cells with
  | [] => Cell.null
  | q :: qs => Cell.num (qs.foldl max q)

/-- `series.mean()`: NaN (null) when no numeric entry exists. -/
def cellMean (cells : List Cell) : Cell :=
  match numsOf cells with
  | [] => Cell.null
  | q :: qs => Cell.num ((q :: qs).sum / (q :: qs).length)

/-- The summary row built for one ticker
(src/data_downloader.py:189-198); `Data_Quality` comes from the Bool
returned by `validate_data`. -/
def summaryRowOf (ticker : String) (d : DataFrame) : SummaryRow :=
  { ticker := ticker,
    records := d.rows.length,
    startDate := strMin (d.rows.map Row.timestamp),
    endDate := strMax (d.rows.map Row.timestamp),
    minClose := cellMin (colCells d "Close"),
    maxClose := cellMax (colCells d "Close"),
    avgVolume := cellMean (colCells d "Volume"),
    dataQuality := if (validate_data d).1 then "Valid" else "Issues" }

/-- `generate_summary_report` (src/data_downloader.py:183-207): one row
per dict entry whose table is non-empty (the dict never holds `None`,
so `data is not None` is always true); each row construction invokes
`validate_data`, recorded as an event. -/
def generate_summary_report (results : List (String × DataFrame)) :
    List SummaryRow × List Event :=
  match results with
  | [] => ([], [])
  | (t, d) :: rest =>
    let r := generate_summary_report rest
    if d.empty then r
    else (summaryRowOf t d :: r.1, Event.validate t d :: r.2)

/-- `main` of src/download_all_tickers.py (lines 54-118), restricted to
its dataflow: compute the new tickers, download them, and generate the
summary report when the results dict is non-empty (`if results:`). -/
def run_pipeline (hist : String → HistResult) (univ : List String)
    (files : Option (List String)) (period interval : String) :
    List SummaryRow × List Event :=
  let newTickers := get_new_tickers_to_download univ files
  let dl := download_multiple_tickers hist newTickers period interval
  if dl.1.isEmpty then ([], dl.2)
  else
    let rep := generate_summary_report dl.1
    (rep.1, dl.2 ++ rep.2)

/-! ### Persistence as file-system operations (for the atomicity claim)

`download_ticker_data` persists with a single `data.to_csv(filepath)`
call (src/data_downloader.py:83).  To speak about partial writes we
model persistence as a list of primitive file-system operations and give
a crash semantics: a crash can strike during any operation; an
interrupted `write` leaves an arbitrary prefix of the intended content
at the target path, while `rename` is atomic. -/

/-- Primitive file-system operations; file content is the list of
serialized lines. -/
inductive FsOp where
  | write (path : String) (content : List String)
  | rename (src dst : String)
  deriving DecidableEq, Repr

/-- A file system: an association of paths to contents. -/
def FS := List (String × List String)

/-- Write (create or overwrite) a file. -/
def setFile (fs : FS) (path : String) (content : List String) : FS :=
  match fs with
  | [] => [(path, content)]
  | (p, c) :: rest =>
    if p == path then (p, content) :: rest else (p, c) :: setFile rest path content

/-- Look up the content of a file. -/
def lookupFS (fs : FS) (path : String) : Option (List String) :=
  match fs with
  | [] => none
  | (p, c) :: rest => if p == path then some c else lookupFS rest path

/-- Delete a file. -/
def delFile (fs : FS) (path : String) : FS :=
  match fs with
  | [] => []
  | (p, c) :: rest => if p == path then delFile rest path else (p, c) :: delFile rest path

/-- Run one operation to completion. -/
def applyOp (fs : FS) : FsOp → FS
  | FsOp.write p c => setFile fs p c
  | FsOp.rename s d =>
    match lookupFS fs s with
    | none => fs
    | some c => setFile (delFile fs s) d c

/-- The initial segments of a list (the possible contents left by an
interrupted write). -/
def initSegs (l : List String) : List (List String) :=
  (List.range (l.length + 1)).map (fun k => l.take k)

/-- The states a crash during one operation can leave behind: an
interrupted write leaves any prefix of the content at the path; a
rename either happened entirely or not at all. -/
def midStates (fs : FS) : FsOp → List FS
  | FsOp.write p c => (initSegs c).map (setFile fs p)
  | FsOp.rename _ _ => [fs]

/-- Every file system reachable by crashing at any point while running
the operations, including before the first and after the last. -/
def crashStates : List FsOp → FS → List FS
  | [], fs => [fs]
  | op :: rest, fs => fs :: midStates fs op ++ crashStates rest (applyOp fs op)

/-- The file-system operations of one persist attempt in
`download_ticker_data` (src/data_downloader.py:80-83): a single direct
`to_csv` write to the final artifact path. -/
def persistOps (ticker period interval : String) (content : List String) :
    List FsOp :=
  [FsOp.write (artifactName ticker period interval) content]

/-- Decidable check of the atomicity property stated by the spec for a persist
attempt: at every crash state, the final artifact path holds either
nothing or the complete content. -/
def atomicPersistCheck (ops : List FsOp) (fs₀ : FS) (finalPath : String)
    (full : List String) : Bool :=
  (crashStates ops fs₀).all (fun fs =>
    match lookupFS fs finalPath with
    | none => true
    | some c => c == full)

/-! ### Spec-side artifact decoding (for the inventory claim)

Second definition, following the words of the spec rather than the source
(spec §4.1, §4.5, §9): artifacts are named by the strict scheme
`base_period_interval.csv`; decoding uses an exact structured match and
skips non-matching files instead of guessing. -/

/-- Modelled from the spec (§9 design note, §4.1): decode a file name by
the strict three-part scheme `base_period_interval.csv`; return the
encoded symbol `base + ".IS"`, or `none` for files that do not match
the scheme. -/
def specDecodeArtifact (f : String) : Option String :=
  match splitAll '_' f with
  | [base, per, iext] =>
    if endsWithCsv iext && !base.isEmpty && !per.isEmpty then
      some (base ++ ".IS")
    else none
  | _ => none

/-! ### Helper definitions and lemmas about runs -/

/-- The tickers passed to the fetch client, in call order, read off an
event trace. -/
def fetchedList (evs : List Event) : List String :=
  evs.filterMap (fun e => match e with | Event.fetchCall t => some t | _ => none)

/-- The table stored for one ticker by `download_ticker_data` (its
return value). -/
def stored (hist : String → HistResult) (period interval t : String) :
    Option DataFrame :=
  (download_ticker_data hist t period interval).1

/-- A fetch outcome that leads to a stored table: an `ok` with a
non-empty table. -/
def okNonEmpty : HistResult → Bool
  | HistResult.ok d => !d.empty
  | HistResult.exn _ => false

/-! ### Concrete fixtures -/

def dfB : DataFrame :=
  { cols := ["Open", "High", "Low", "Close", "Volume"],
    rows := [{ timestamp := "2025-01-02",
               cells := [Cell.num 1, Cell.num 2, Cell.num 1, Cell.num 1,
                         Cell.num 100] }] }

def histAB : String → HistResult :=
  fun t => if t == "B.IS" then HistResult.ok dfB else HistResult.exn "network error"

def dfNoVol : DataFrame :=
  { cols := ["Open", "High", "Low", "Close"],
    rows := [{ timestamp := "2025-01-02",
               cells := [Cell.num 10, Cell.num 12, Cell.num 9, Cell.num 11] }] }

def dfMissingVolBadClose : DataFrame :=
  { cols := ["Open", "High", "Low", "Close"],
    rows := [{ timestamp := "2025-01-02",
               cells := [Cell.num 10, Cell.num 12, Cell.num 9, Cell.num (-5)] }] }

def dfBadClose : DataFrame :=
  { cols := ["Open", "High", "Low", "Close", "Volume"],
    rows := [{ timestamp := "2025-01-02",
               cells := [Cell.num 10, Cell.num 12, Cell.num 9, Cell.num 0,
                         Cell.num 500] }] }

/-! ### Lemmas about runs -/

theorem mem_fetchedList {t : String} {evs : List Event} :
    t ∈ fetchedList evs ↔ Event.fetchCall t ∈ evs := by
  constructor
  · intro h
    rcases List.mem_filterMap.mp h with ⟨e, he, hsome⟩
    cases e <;> simp_all
  · intro h
    exact List.mem_filterMap.mpr ⟨_, h, rfl⟩

theorem fetchedList_append (a b : List Event) :
    fetchedList (a ++ b) = fetchedList a ++ fetchedList b :=
  List.filterMap_append a b _

theorem dtd_fetched (hist : String → HistResult) (t p i : String) :
    fetchedList (download_ticker_data hist t p i).2 = [t] := by
  cases h : hist t <;> simp [download_ticker_data, h, fetchedList]
  split <;> simp [fetchedList]

theorem dmtGo_fetched (hist : String → HistResult) (p i : String)
    (ts : List String) :
    ∀ acc, fetchedList (dmtGo hist p i ts acc).2 = ts := by
  induction ts with
  | nil => intro acc; simp [dmtGo, fetchedList]
  | cons t rest ih =>
      intro acc
      simp only [dmtGo]
      rw [fetchedList_append, fetchedList_append, dtd_fetched, ih]
      split <;> simp [fetchedList]

theorem stored_eq_some {hist : String → HistResult} {p i t : String}
    {d : DataFrame} :
    stored hist p i t = some d ↔
      ∃ d₀, hist t = HistResult.ok d₀ ∧ d₀.empty = false ∧
        d = addTickerColumn t d₀ := by
  cases h : hist t with
  | exn m => simp [stored, download_ticker_data, h]
  | ok d₀ =>
      simp only [stored, download_ticker_data, h]
      split <;> rename_i hEmpty <;> simp_all
      constructor
      · rintro rfl; rfl
      · rintro rfl; rfl

theorem stored_isSome (hist : String → HistResult) (p i t : String) :
    (stored hist p i t).isSome = okNonEmpty (hist t) := by
  cases h : hist t with
  | exn m => simp [stored, download_ticker_data, h, okNonEmpty]
  | ok d₀ =>
      simp only [stored, download_ticker_data, h, okNonEmpty]
      split <;> simp_all

theorem addTickerColumn_empty (t : String) (d : DataFrame)
    (h : d.empty = false) : (addTickerColumn t d).empty = false := by
  simp only [DataFrame.empty, addTickerColumn, Bool.or_eq_false_iff] at *
  constructor
  · simpa using h.1
  · simp

theorem stored_empty_false {hist : String → HistResult} {p i t : String}
    {d : DataFrame} (h : stored hist p i t = some d) : d.empty = false := by
  rcases stored_eq_some.mp h with ⟨d₀, _, hne, rfl⟩
  exact addTickerColumn_empty t d₀ hne

theorem persist_mem_dtd {hist : String → HistResult} {t p i f : String}
    {d : DataFrame} :
    Event.persist f d ∈ (download_ticker_data hist t p i).2 ↔
      ∃ d₀, hist t = HistResult.ok d₀ ∧ d₀.empty = false ∧
        f = artifactName t p i ∧ d = addTickerColumn t d₀ := by
  cases h : hist t with
  | exn m => simp [download_ticker_data, h]
  | ok d₀ =>
      simp only [download_ticker_data, h]
      split <;> rename_i hEmpty <;> simp_all

theorem persist_mem_dmtGo (hist : String → HistResult) (p i f : String)
    (d : DataFrame) (ts : List String) :
    ∀ acc, Event.persist f d ∈ (dmtGo hist p i ts acc).2 ↔
      ∃ t ∈ ts, ∃ d₀, hist t = HistResult.ok d₀ ∧ d₀.empty = false ∧
        f = artifactName t p i ∧ d = addTickerColumn t d₀ := by
  induction ts with
  | nil => intro acc; simp [dmtGo]
  | cons t rest ih =>
      intro acc
      simp only [dmtGo, List.mem_append]
      rw [persist_mem_dtd, ih]
      constructor
      · rintro ((h | h) | h)
        · exact ⟨t, List.mem_cons_self t rest, h⟩
        · exfalso; revert h; split <;> simp
        · rcases h with ⟨u, hu, h⟩
          exact ⟨u, List.mem_cons_of_mem t hu, h⟩
      · rintro ⟨u, hu, h⟩
        rcases List.mem_cons.mp hu with rfl | hu
        · exact Or.inl (Or.inl h)
        · exact Or.inr ⟨u, hu, h⟩

theorem dictSet_of_not_mem {m : List (String × DataFrame)} {k : String}
    {v : DataFrame} (h : k ∉ m.map Prod.fst) :
    dictSet m k v = m ++ [(k, v)] := by
  induction m with
  | nil => rfl
  | cons p rest ih =>
      simp only [List.map_cons, List.mem_cons] at h
      push_neg at h
      simp only [dictSet]
      rw [if_neg (by simpa using fun hc => h.1 hc.symm), ih h.2]
      simp

theorem dmtGo_results (hist : String → HistResult) (p i : String)
    (ts : List String) :
    ∀ acc, (∀ t ∈ ts, t ∉ acc.map Prod.fst) → ts.Nodup →
      (dmtGo hist p i ts acc).1 =
        acc ++ ts.filterMap (fun t => (stored hist p i t).map (fun d => (t, d))) := by
  induction ts with
  | nil => intro acc _ _; simp [dmtGo]
  | cons t rest ih =>
      intro acc hacc hnd
      rcases List.nodup_cons.mp hnd with ⟨htr, hndr⟩
      simp only [dmtGo]
      cases hst : (download_ticker_data hist t p i).1 with
      | none =>
          simp only [hst]
          rw [ih acc (fun u hu => hacc u (List.mem_cons_of_mem t hu)) hndr]
          have hs : stored hist p i t = none := hst
          simp [List.filterMap_cons, hs]
      | some d =>
          have hset : dictSet acc t d = acc ++ [(t, d)] :=
            dictSet_of_not_mem (hacc t (List.mem_cons_self t rest))
          have hcond : ∀ u ∈ rest, u ∉ (acc ++ [(t, d)]).map Prod.fst := by
            intro u hu
            simp only [List.map_append, List.mem_append, List.map_cons,
              List.map_nil, List.mem_singleton]
            rintro (h | h)
            · exact hacc u (List.mem_cons_of_mem t hu) h
            · exact htr (by simpa [h] using hu)
          simp only [hst]
          rw [hset, ih (acc ++ [(t, d)]) hcond hndr]
          have hs : stored hist p i t = some d := hst
          simp [List.filterMap_cons, hs, List.append_assoc]

theorem results_eq (hist : String → HistResult) (ts : List String)
    (p i : String) (h : ts.Nodup) :
    (download_multiple_tickers hist ts p i).1 =
      ts.filterMap (fun t => (stored hist p i t).map (fun d => (t, d))) := by
  simpa using dmtGo_results hist p i ts [] (by simp) h

theorem map_fst_filterMap_stored (g : String → Option DataFrame) :
    ∀ ts : List String,
      (ts.filterMap (fun t => (g t).map (fun d => (t, d)))).map Prod.fst =
        ts.filter (fun t => (g t).isSome) := by
  intro ts
  induction ts with
  | nil => rfl
  | cons t rest ih =>
      cases h : g t with
      | none => rw [List.filterMap_cons, h]; simp [List.filter_cons, h, ih]
      | some d =>
          rw [List.filterMap_cons, h]
          simp only [Option.map_some']
          rw [List.filter_cons]
          simp [h, ih]

theorem results_keys (hist : String → HistResult) (ts : List String)
    (p i : String) (h : ts.Nodup) :
    (download_multiple_tickers hist ts p i).1.map Prod.fst =
      ts.filter (fun t => (stored hist p i t).isSome) := by
  rw [results_eq hist ts p i h, map_fst_filterMap_stored]

theorem mem_results {hist : String → HistResult} {ts : List String}
    {p i : String} (h : ts.Nodup) {t : String} {d : DataFrame} :
    (t, d) ∈ (download_multiple_tickers hist ts p i).1 ↔
      t ∈ ts ∧ stored hist p i t = some d := by
  rw [results_eq hist ts p i h, List.mem_filterMap]
  constructor
  · rintro ⟨u, hu, hsome⟩
    cases hg : stored hist p i u with
    | none => rw [hg] at hsome; simp [Option.map_none'] at hsome
    | some d' =>
        rw [hg] at hsome
        simp only [Option.map_some'] at hsome
        cases hsome
        exact ⟨hu, hg⟩
  · rintro ⟨ht, hg⟩
    exact ⟨t, ht, by rw [hg]; rfl⟩

theorem gsr_rows (results : List (String × DataFrame))
    (h : ∀ q ∈ results, (Prod.snd q).empty = false) :
    (generate_summary_report results).1.map SummaryRow.ticker =
        results.map Prod.fst ∧
      (generate_summary_report results).1.length = results.length := by
  induction results with
  | nil => simp [generate_summary_report]
  | cons q rest ih =>
      obtain ⟨t, d⟩ := q
      have hd : d.empty = false := h (t, d) (List.mem_cons_self _ _)
      have hrest := ih (fun q hq => h q (List.mem_cons_of_mem _ hq))
      simp [generate_summary_report, hd, summaryRowOf, hrest.1, hrest.2]

theorem gsr_validate_mem (results : List (String × DataFrame))
    {t : String} {d : DataFrame} (hmem : (t, d) ∈ results)
    (hd : d.empty = false) :
    Event.validate t d ∈ (generate_summary_report results).2 := by
  induction results with
  | nil => simp at hmem
  | cons q rest ih =>
      obtain ⟨u, du⟩ := q
      rcases List.mem_cons.mp hmem with heq | hmem'
      · cases heq
        simp [generate_summary_report, hd]
      · simp only [generate_summary_report]
        split
        · exact ih hmem'
        · exact List.mem_cons_of_mem _ (ih hmem')

theorem gsr_events_validate (results : List (String × DataFrame)) :
    ∀ e ∈ (generate_summary_report results).2, ∃ t d, e = Event.validate t d := by
  induction results with
  | nil => simp [generate_summary_report]
  | cons q rest ih =>
      obtain ⟨u, du⟩ := q
      intro e he
      simp only [generate_summary_report] at he
      revert he
      split
      · exact fun he => ih e he
      · intro he
        rcases List.mem_cons.mp he with rfl | he'
        · exact ⟨u, du, rfl⟩
        · exact ih e he'

theorem filter_true_of_contains_nil (l : List String) :
    l.filter (fun t => !(List.contains [] t)) = l := by
  simp [List.contains]

/-- C10: If the storage location does not exist at all, the inventory
scan returns the empty set without raising an error, so the computed
missing set equals the full universe — both in the scheduler
(`get_existing_tickers` / `get_new_tickers_to_download`) and in the
progress checker (`downloaded_tickers` / `missing_tickers`). -/
theorem c10_missing_storage_full_universe (univ : List String) :
    get_existing_tickers none = [] ∧
    get_new_tickers_to_download univ none = univ ∧
    downloaded_tickers none = [] ∧
    missing_tickers univ none = univ := by
  refine ⟨rfl, ?_, rfl, ?_⟩ <;>
    · apply List.filter_eq_self.mpr
      intro t _
      simp [get_existing_tickers, downloaded_tickers]

/-- C4: the verdict of the Validator is false if and only if the table is
empty, a required column is missing, or some close value is
non-positive; a table whose only defect is missing/null cells still
passes. -/
theorem c4_validator_verdict (d : DataFrame) :
    (validate_data d).1 = false ↔
      (d.empty = true ∨
       (∃ c ∈ requiredColumns, c ∉ d.cols) ∨
       (∃ c ∈ colCells d "Close", isNonPositive c = true)) := by
  simp only [validate_data]
  split <;> rename_i h1
  · exact ⟨fun _ => Or.inl h1, fun _ => rfl⟩
  · split <;> rename_i h2
    · split <;> rename_i h3
      · simp only [List.any_eq_true] at h3
        exact ⟨fun _ => Or.inr (Or.inr h3), fun _ => rfl⟩
      · have h2' : ∀ c ∈ requiredColumns, d.cols.contains c = true := by
          intro c hc
          by_contra hn
          have hmem : c ∈ requiredColumns.filter (fun c => !(d.cols.contains c)) :=
            List.mem_filter.mpr ⟨hc, by simpa using hn⟩
          rw [List.isEmpty_iff.mp h2] at hmem
          simp at hmem
        simp only [List.any_eq_true] at h3
        split <;>
          · constructor
            · intro hc; exact absurd hc (by simp)
            · rintro (h | ⟨c, hc, hmem⟩ | ⟨c, hc, hp⟩)
              · exact absurd h h1
              · exact absurd (show c ∈ d.cols by simpa using h2' c hc) hmem
              · exact absurd ⟨c, hc, hp⟩ h3
    · have hne : requiredColumns.filter (fun c => !(d.cols.contains c)) ≠ [] := by
        intro hnil; exact h2 (by rw [hnil]; rfl)
      rcases List.exists_mem_of_ne_nil _ hne with ⟨c, hcf⟩
      rcases List.mem_filter.mp hcf with ⟨hcr, hcc⟩
      constructor
      · intro _
        exact Or.inr (Or.inl ⟨c, hcr, by simpa using hcc⟩)
      · intro _; rfl


/-- C7 counterexample: a storage holding only the unrelated file
`backup_old.csv` — not a well-formed artifact (the spec-side strict
decoder skips it) — still makes the scanner attribute it to the symbol
`backup.IS`, so the scan is not the set of symbols encoded by
well-formed artifacts. -/
theorem c7_counterexample :
    get_existing_tickers (some ["backup_old.csv"]) = ["backup.IS"] ∧
    specDecodeArtifact "backup_old.csv" = none :=
  ⟨by decide, by decide⟩

/-- C7 (amended): the Inventory Scanner returns exactly the symbols
`first-underscore-segment(f) + ".IS"` for the `.csv` files `f` of the
storage: non-`.csv` files are skipped without error, but every `.csv`
file — well-formed artifact or not — is attributed to the symbol
derived from its first underscore segment. -/
theorem c7_amended_scanner_membership (files : List String) (t : String) :
    t ∈ get_existing_tickers (some files) ↔
      ∃ f ∈ files, endsWithCsv f = true ∧ tickerOfFile f = t := by
  simp only [get_existing_tickers, List.mem_map, List.mem_filter]
  constructor
  · rintro ⟨f, ⟨hf, hcsv⟩, rfl⟩; exact ⟨f, hf, hcsv, rfl⟩
  · rintro ⟨f, hf, hcsv, rfl⟩; exact ⟨f, ⟨hf, hcsv⟩, rfl⟩

/-- C5 counterexample: a table missing the Volume column whose single
close value is non-positive (exactly one violation among its rows): the
Validator stops at the missing-column rule, so its diagnostics contain
no record of the close violation — the rules are short-circuited and
the diagnostics incomplete. -/
theorem c5_counterexample :
    (colCells dfMissingVolBadClose "Close").countP isNonPositive = 1 ∧
    validate_data dfMissingVolBadClose =
      (false, [Diag.missingColumnsWarn ["Volume"]]) ∧
    Diag.invalidCloseWarn ∉ (validate_data dfMissingVolBadClose).2 :=
  ⟨by decide, by decide, by decide⟩

/-- C5 (amended): the Validator checks the rules in order with early
return, so the first failing rule alone determines the diagnostics: a
non-empty table missing the Volume column yields passed = false with
the missing-columns diagnostic naming Volume and nothing else (the
close rule is not evaluated); a non-empty table with all required
columns and a non-positive close yields passed = false with only the
invalid-close flag (the source records no violation count). -/
theorem c5_amended_validator_diagnostics (d : DataFrame) :
    (d.empty = false → ("Volume" ∈ d.cols → False) →
      validate_data d =
        (false, [Diag.missingColumnsWarn
          (requiredColumns.filter (fun c => !(d.cols.contains c)))]) ∧
      "Volume" ∈ requiredColumns.filter (fun c => !(d.cols.contains c))) ∧
    (d.empty = false → (∀ c ∈ requiredColumns, c ∈ d.cols) →
      (colCells d "Close").any isNonPositive = true →
      validate_data d = (false, [Diag.invalidCloseWarn])) := by
  constructor
  · intro hne hvol
    have hmem : "Volume" ∈ requiredColumns.filter (fun c => !(d.cols.contains c)) :=
      List.mem_filter.mpr ⟨by simp [requiredColumns], by simpa using hvol⟩
    have hfe : (requiredColumns.filter (fun c => !(d.cols.contains c))).isEmpty = false := by
      rcases hh : (requiredColumns.filter (fun c => !(d.cols.contains c))) with _ | ⟨a, l⟩
      · rw [hh] at hmem; simp at hmem
      · rfl
    refine ⟨?_, hmem⟩
    simp only [validate_data, hne, hfe]
    rfl
  · intro hne hcols hany
    have hfil : requiredColumns.filter (fun c => !(d.cols.contains c)) = [] := by
      apply List.filter_eq_nil_iff.mpr
      intro c hc
      simp [hcols c hc]
    simp only [validate_data, hne, hfil, hany]
    rfl

/-- C5 amended witness at concrete tables. -/
theorem c5_amended_witness :
    (validate_data dfNoVol =
      (false, [Diag.missingColumnsWarn
        (requiredColumns.filter (fun c => !(dfNoVol.cols.contains c)))]) ∧
     "Volume" ∈ requiredColumns.filter (fun c => !(dfNoVol.cols.contains c))) ∧
    validate_data dfBadClose = (false, [Diag.invalidCloseWarn]) :=
  ⟨(c5_amended_validator_diagnostics dfNoVol).1 (by decide) (by decide),
   (c5_amended_validator_diagnostics dfBadClose).2 (by decide) (by decide) (by decide)⟩

/-- C2 counterexample: two symbols where the first fetch raises: the
first symbol is attempted (its fetch call is in the trace) and the
batch continues, but the returned mapping has no entry for it — the
mapping does not cover Empty/Failed symbols. -/
theorem c2_counterexample :
    Event.fetchCall "A.IS" ∈
      (download_multiple_tickers histAB ["A.IS", "B.IS"] "1y" "1d").2 ∧
    "A.IS" ∉
      (download_multiple_tickers histAB ["A.IS", "B.IS"] "1y" "1d").1.map Prod.fst :=
  ⟨by decide, by decide⟩

/-- C2 (amended): an Empty or Failed fetch never aborts the batch —
every listed symbol is attempted, each exactly once and in order; a
symbol whose fetch is Empty or Failed is never persisted; and the
returned mapping has entries exactly for the attempted symbols whose
fetch returned a non-empty table (Empty/Failed symbols are absent). -/
theorem c2_amended_batch_resilience (hist : String → HistResult)
    (ts : List String) (p i : String) (h : ts.Nodup) :
    fetchedList (download_multiple_tickers hist ts p i).2 = ts ∧
    (∀ f d, Event.persist f d ∈ (download_multiple_tickers hist ts p i).2 →
      ∃ t ∈ ts, ∃ d₀, hist t = HistResult.ok d₀ ∧ d₀.empty = false ∧
        f = artifactName t p i ∧ d = addTickerColumn t d₀) ∧
    (download_multiple_tickers hist ts p i).1.map Prod.fst =
      ts.filter (fun t => okNonEmpty (hist t)) := by
  refine ⟨dmtGo_fetched hist p i ts [], ?_, ?_⟩
  · intro f d hmem
    exact (persist_mem_dmtGo hist p i f d ts []).mp hmem
  · rw [results_keys hist ts p i h]
    exact List.filter_congr (fun t _ => stored_isSome hist p i t)

/-- C2 amended witness at a concrete failing batch. -/
theorem c2_amended_witness :
    fetchedList (download_multiple_tickers histAB ["A.IS", "B.IS"] "1y" "1d").2 =
      ["A.IS", "B.IS"] ∧
    (download_multiple_tickers histAB ["A.IS", "B.IS"] "1y" "1d").1.map Prod.fst =
      ["A.IS", "B.IS"].filter (fun t => okNonEmpty (histAB t)) :=
  ⟨(c2_amended_batch_resilience histAB ["A.IS", "B.IS"] "1y" "1d" (by decide)).1,
   (c2_amended_batch_resilience histAB ["A.IS", "B.IS"] "1y" "1d" (by decide)).2.2⟩

/-- C3 counterexample: a run over a two-symbol universe with empty
storage where the first fetch fails: the missing set has two symbols
but the report has a single row (for the successful symbol only) — the
failed symbol gets no "no data" row, it is dropped. -/
theorem c3_counterexample :
    (get_new_tickers_to_download ["A.IS", "B.IS"] none).length = 2 ∧
    (run_pipeline histAB ["A.IS", "B.IS"] none "1y" "1d").1.map SummaryRow.ticker =
      ["B.IS"] :=
  ⟨by decide, by decide⟩

/-- C3 (amended): the Summary Report contains exactly one row per
attempted symbol whose fetch returned a non-empty table, in attempt
order; symbols with Empty or Failed outcomes are dropped, so the report
length is the number of successful symbols, not the size of the missing
set. -/
theorem c3_amended_report_rows (hist : String → HistResult)
    (univ : List String) (files : Option (List String)) (p i : String)
    (h : univ.Nodup) :
    (run_pipeline hist univ files p i).1.map SummaryRow.ticker =
      (get_new_tickers_to_download univ files).filter
        (fun t => okNonEmpty (hist t)) ∧
    (run_pipeline hist univ files p i).1.length =
      ((get_new_tickers_to_download univ files).filter
        (fun t => okNonEmpty (hist t))).length := by
  have hnew : (get_new_tickers_to_download univ files).Nodup := h.filter _
  have hkeys : (download_multiple_tickers hist
        (get_new_tickers_to_download univ files) p i).1.map Prod.fst =
      (get_new_tickers_to_download univ files).filter
        (fun t => okNonEmpty (hist t)) := by
    rw [results_keys hist _ p i hnew]
    exact List.filter_congr (fun t _ => stored_isSome hist p i t)
  have hemp : ∀ q ∈ (download_multiple_tickers hist
        (get_new_tickers_to_download univ files) p i).1,
      (Prod.snd q).empty = false := by
    intro q hq
    obtain ⟨t, d⟩ := q
    exact stored_empty_false ((mem_results hnew).mp hq).2
  have hrows := gsr_rows _ hemp
  simp only [run_pipeline]
  split <;> rename_i hEmpty
  · have hnil : (download_multiple_tickers hist
        (get_new_tickers_to_download univ files) p i).1 = [] :=
      List.isEmpty_iff.mp hEmpty
    rw [hnil] at hkeys
    constructor
    · simpa using hkeys.symm
    · rw [← hkeys]; simp
  · exact ⟨hrows.1.trans hkeys, by rw [hrows.2, ← hkeys, List.length_map]⟩

/-- C3 amended witness at a concrete failing batch. -/
theorem c3_amended_witness :
    (run_pipeline histAB ["A.IS", "B.IS"] none "1y" "1d").1.map SummaryRow.ticker =
      (get_new_tickers_to_download ["A.IS", "B.IS"] none).filter
        (fun t => okNonEmpty (histAB t)) :=
  (c3_amended_report_rows histAB ["A.IS", "B.IS"] none "1y" "1d" (by decide)).1

/-- C6: for every symbol of the missing set whose fetch returns a
non-empty table, the run persists the table and invokes the Validator
on it; moreover a persist event occurs exactly when the fetch returned
a non-empty table — the criterion mentions no validation outcome, so a
validation failure never prevents persistence. -/
theorem c6_persist_regardless_of_validation (hist : String → HistResult)
    (univ : List String) (files : Option (List String)) (p i : String)
    (h : univ.Nodup) :
    (∀ t d₀, t ∈ get_new_tickers_to_download univ files →
      hist t = HistResult.ok d₀ → d₀.empty = false →
      Event.persist (artifactName t p i) (addTickerColumn t d₀) ∈
          (run_pipeline hist univ files p i).2 ∧
        Event.validate t (addTickerColumn t d₀) ∈
          (run_pipeline hist univ files p i).2) ∧
    (∀ f d, Event.persist f d ∈ (run_pipeline hist univ files p i).2 ↔
      ∃ t ∈ get_new_tickers_to_download univ files, ∃ d₀,
        hist t = HistResult.ok d₀ ∧ d₀.empty = false ∧
        f = artifactName t p i ∧ d = addTickerColumn t d₀) := by
  have hnew : (get_new_tickers_to_download univ files).Nodup := h.filter _
  have hpersist_dl : ∀ f d,
      Event.persist f d ∈ (download_multiple_tickers hist
          (get_new_tickers_to_download univ files) p i).2 ↔
        ∃ t ∈ get_new_tickers_to_download univ files, ∃ d₀,
          hist t = HistResult.ok d₀ ∧ d₀.empty = false ∧
          f = artifactName t p i ∧ d = addTickerColumn t d₀ :=
    fun f d => persist_mem_dmtGo hist p i f d _ []
  have hrun : ∀ e, e ∈ (run_pipeline hist univ files p i).2 ↔
      (e ∈ (download_multiple_tickers hist
          (get_new_tickers_to_download univ files) p i).2 ∨
        ((download_multiple_tickers hist
            (get_new_tickers_to_download univ files) p i).1.isEmpty = false ∧
          e ∈ (generate_summary_report (download_multiple_tickers hist
            (get_new_tickers_to_download univ files) p i).1).2)) := by
    intro e
    simp only [run_pipeline]
    split <;> rename_i hEmpty
    · simp [hEmpty]
    · simp [List.mem_append, Bool.of_not_eq_true hEmpty]
  constructor
  · intro t d₀ ht hok hne
    have hst : stored hist p i t = some (addTickerColumn t d₀) :=
      stored_eq_some.mpr ⟨d₀, hok, hne, rfl⟩
    have hres : (t, addTickerColumn t d₀) ∈ (download_multiple_tickers hist
        (get_new_tickers_to_download univ files) p i).1 :=
      (mem_results hnew).mpr ⟨ht, hst⟩
    have hdne : (download_multiple_tickers hist
        (get_new_tickers_to_download univ files) p i).1.isEmpty = false := by
      rcases hh : (download_multiple_tickers hist
          (get_new_tickers_to_download univ files) p i).1 with _ | _
      · rw [hh] at hres; simp at hres
      · rfl
    constructor
    · exact (hrun _).mpr (Or.inl ((hpersist_dl _ _).mpr
        ⟨t, ht, d₀, hok, hne, rfl, rfl⟩))
    · exact (hrun _).mpr (Or.inr ⟨hdne,
        gsr_validate_mem _ hres (addTickerColumn_empty t d₀ hne)⟩)
  · intro f d
    rw [hrun _]
    constructor
    · rintro (hm | ⟨_, hm⟩)
      · exact (hpersist_dl f d).mp hm
      · rcases gsr_events_validate _ _ hm with ⟨u, du, heq⟩
        simp at heq
    · intro hcrit
      exact Or.inl ((hpersist_dl f d).mpr hcrit)

/-- C6 witness at a concrete run. -/
theorem c6_witness :
    Event.persist (artifactName "B.IS" "1y" "1d") (addTickerColumn "B.IS" dfB) ∈
      (run_pipeline histAB ["A.IS", "B.IS"] none "1y" "1d").2 ∧
    Event.validate "B.IS" (addTickerColumn "B.IS" dfB) ∈
      (run_pipeline histAB ["A.IS", "B.IS"] none "1y" "1d").2 :=
  (c6_persist_regardless_of_validation histAB ["A.IS", "B.IS"] none "1y" "1d"
    (by decide)).1 "B.IS" dfB (by decide) (by decide) (by decide)

/-- C1: the work set of the scheduler is exactly the universe minus the
inventory derived from storage, in universe order without repetition,
and each of its symbols is fetched exactly once; a symbol whose
artifact (under the naming scheme, with the scheme invertible for it)
is present in storage is never passed to the fetch client. -/
theorem c1_at_most_once_acquisition (univ : List String)
    (files : Option (List String)) (hist : String → HistResult)
    (p i : String) (hU : univ.Nodup) :
    List.Sublist (get_new_tickers_to_download univ files) univ ∧
    (get_new_tickers_to_download univ files).Nodup ∧
    (∀ t, t ∈ get_new_tickers_to_download univ files ↔
      t ∈ univ ∧ t ∉ get_existing_tickers files) ∧
    fetchedList (download_multiple_tickers hist
        (get_new_tickers_to_download univ files) p i).2 =
      get_new_tickers_to_download univ files ∧
    (∀ fs t, files = some fs →
      tickerOfFile (artifactName t p i) = t →
      endsWithCsv (artifactName t p i) = true →
      artifactName t p i ∈ fs →
      Event.fetchCall t ∉ (download_multiple_tickers hist
        (get_new_tickers_to_download univ files) p i).2) := by
  have hmemiff : ∀ t, t ∈ get_new_tickers_to_download univ files ↔
      t ∈ univ ∧ t ∉ get_existing_tickers files := by
    intro t
    simp [get_new_tickers_to_download, List.mem_filter]
  refine ⟨List.filter_sublist _, hU.filter _, hmemiff, dmtGo_fetched hist p i _ [], ?_⟩
  intro fs t hfs hdec hcsv hmem hfetch
  have hexist : t ∈ get_existing_tickers files := by
    rw [hfs]
    simp only [get_existing_tickers]
    rw [← hdec]
    exact List.mem_map_of_mem _ (List.mem_filter.mpr ⟨hmem, hcsv⟩)
  have ht : t ∈ get_new_tickers_to_download univ files := by
    rw [← dmtGo_fetched hist p i (get_new_tickers_to_download univ files) []]
    exact mem_fetchedList.mpr hfetch
  exact ((hmemiff t).mp ht).2 hexist

/-- C1 witness: storage already holds the artifact for THYAO.IS, so the
run never issues a fetch call for it. -/
theorem c1_witness :
    Event.fetchCall "THYAO.IS" ∉
      (download_multiple_tickers histAB
        (get_new_tickers_to_download ["THYAO.IS", "GARAN.IS"]
          (some ["THYAO_1y_1d.csv"])) "1y" "1d").2 :=
  (c1_at_most_once_acquisition ["THYAO.IS", "GARAN.IS"]
      (some ["THYAO_1y_1d.csv"]) histAB "1y" "1d" (by decide)).2.2.2.2
    ["THYAO_1y_1d.csv"] "THYAO.IS" rfl (by decide) (by decide) (by decide)

/-- C8 counterexample: the single direct `to_csv` write of a two-line
table for THYAO.IS is not atomic with respect to partial writes (a
crash state exists where the final artifact path holds a strict
prefix), and a file at that artifact name is counted by the next
inventory scan. -/
theorem c8_counterexample :
    atomicPersistCheck (persistOps "THYAO.IS" "1y" "1d" ["row1", "row2"]) []
      (artifactName "THYAO.IS" "1y" "1d") ["row1", "row2"] = false ∧
    "THYAO.IS" ∈ get_existing_tickers (some [artifactName "THYAO.IS" "1y" "1d"]) :=
  ⟨by decide, by decide⟩

/-- C8 (amended): the persist step is a single direct write to the
final artifact path — no temporary name and no rename — so an
interrupted write can leave a strict, non-equal prefix of the content
at exactly the path the Inventory Scanner reads. -/
theorem c8_amended_direct_write (t p i : String) (content : List String)
    (h : 2 ≤ content.length) :
    persistOps t p i content = [FsOp.write (artifactName t p i) content] ∧
    setFile [] (artifactName t p i) (content.take 1) ∈
      crashStates (persistOps t p i content) [] ∧
    lookupFS (setFile [] (artifactName t p i) (content.take 1))
      (artifactName t p i) = some (content.take 1) ∧
    content.take 1 ≠ content := by
  refine ⟨rfl, ?_, ?_, ?_⟩
  · simp only [persistOps, crashStates, midStates, initSegs]
    refine List.mem_cons_of_mem _ (List.mem_append_left _ ?_)
    exact List.mem_map.mpr ⟨List.take 1 content,
      List.mem_map.mpr ⟨1, List.mem_range.mpr (by omega), rfl⟩, rfl⟩
  · simp [setFile, lookupFS]
  · intro hEq
    have hlen := congrArg List.length hEq
    rw [List.length_take] at hlen
    omega

/-- C8 amended witness at a concrete two-line table. -/
theorem c8_amended_witness :
    persistOps "THYAO.IS" "1y" "1d" ["row1", "row2"] =
      [FsOp.write (artifactName "THYAO.IS" "1y" "1d") ["row1", "row2"]] ∧
    setFile [] (artifactName "THYAO.IS" "1y" "1d") (["row1", "row2"].take 1) ∈
      crashStates (persistOps "THYAO.IS" "1y" "1d" ["row1", "row2"]) [] ∧
    lookupFS (setFile [] (artifactName "THYAO.IS" "1y" "1d")
        (["row1", "row2"].take 1)) (artifactName "THYAO.IS" "1y" "1d") =
      some (["row1", "row2"].take 1) ∧
    (["row1", "row2"].take 1) ≠ ["row1", "row2"] :=
  c8_amended_direct_write "THYAO.IS" "1y" "1d" ["row1", "row2"] (by decide)
